import Mathlib

/-!
# SprintCOO task pipeline — shallow embedding

A shallow embedding of the task lifecycle pipeline of the SprintCOO
repository (`src/server/routes.ts`, the `DatabaseStorage` store and the
shared schema), together with theorems settling the specification claims
about triage, execute, import, generate-posts and the task list query.

External collaborators (the Anthropic classifier, the Gemini executor, the
Google Drive file source) are opaque in the source; here each call's
outcome is an explicit datatype parameter, discretising the untrusted
response text into the cases the handlers distinguish (throwing call /
unparseable JSON, parseable JSON without the expected field, parseable
JSON carrying the field).  Timestamps (`new Date()`) are `Nat` parameters.
The drizzle ORM store is modelled as pure lists; `db.update(...).set`
skips fields whose value is `undefined` (drizzle's `mapUpdateSet` filters
them), which the partial-update record below mirrors with `Option`.
-/

namespace SprintCOO

/-- A row of the `tasks` table (`src/shared/schema.ts`).  `serial`/
`integer` ids are `Nat`, nullable columns are `Option`, timestamps are
`Nat`.  The `metadata`/`dueDate`/`assignedAgentId` columns are carried for
completeness of the row shape but never touched by the pipeline. -/
structure Task where
  id : Nat
  userId : String
  projectId : Option Nat
  title : String
  description : Option String
  category : String
  status : String
  priority : String
  sourceFile : Option String
  assignedAgentId : Option Nat
  result : Option String
  errorMessage : Option String
  dueDate : Option Nat
  completedAt : Option Nat
  createdAt : Nat
  updatedAt : Nat
  deriving Repr, DecidableEq

/-- A row of the `projects` table (only the columns the pipeline reads). -/
structure Project where
  id : Nat
  userId : String
  name : String
  createdAt : Nat
  deriving Repr, DecidableEq

/-- A row of the `activity_logs` table. -/
structure ActivityLog where
  userId : String
  action : String
  description : String
  entityType : Option String
  entityId : Option Nat
  deriving Repr, DecidableEq

/-- A row of the `notifications` table (columns the pipeline writes). -/
structure Notification where
  userId : String
  type : String
  title : String
  message : String
  deriving Repr, DecidableEq

/-- A row of the `social_posts` table (columns `generate-posts` writes). -/
structure SocialPost where
  userId : String
  masterDocumentId : Nat
  platform : String
  content : String
  status : String
  deriving Repr, DecidableEq

/-- A row of the `files` table (columns the pipeline reads/writes). -/
structure FileRec where
  id : Nat
  userId : String
  name : String
  source : String
  googleDriveId : Option String
  content : Option String
  type : String
  deriving Repr, DecidableEq

/-- JavaScript truthiness of an optional string (`undefined`, `null` and
`""` are falsy). -/
def strTruthy : Option String → Bool
  | some s => s ≠ ""
  | none => false

/-- JavaScript truthiness of an optional number (`undefined`, `null` and
`0` are falsy; `parseInt` failures surface as `none`). -/
def natTruthy : Option Nat → Bool
  | some n => n ≠ 0
  | none => false

/-- Ordering used by `orderBy(desc(createdAt))`: newer rows first. -/
def createdDesc (a b : Task) : Prop := b.createdAt ≤ a.createdAt

instance : DecidableRel createdDesc := fun a b => Nat.decLe b.createdAt a.createdAt

/-- The `orderBy(desc(createdAt))` ordering for projects. -/
def projectCreatedDesc (a b : Project) : Prop := b.createdAt ≤ a.createdAt

instance : DecidableRel projectCreatedDesc :=
  fun a b => Nat.decLe b.createdAt a.createdAt

/-- The `filters` argument of `DatabaseStorage.getTasks`. -/
structure TaskFilters where
  projectId : Option Nat
  category : Option String
  status : Option String
  deriving Repr, DecidableEq

/-- The storage-layer `DatabaseStorage.getTasks`: starts from the
`userId`-scoped query and, for each truthy filter in source order
(`projectId`, then `category`, then `status`), *replaces* the whole query
by a fresh one conjoining `userId` with that single filter; finally orders
by `createdAt` descending. -/
def getTasks (db : List Task) (userId : String) (filters : TaskFilters) :
    List Task :=
  let query := db.filter (fun t => t.userId == userId)
  let query :=
    if natTruthy filters.projectId then
      db.filter (fun t => t.userId == userId && t.projectId == filters.projectId)
    else query
  let query :=
    if strTruthy filters.category then
      db.filter (fun t => t.userId == userId && some t.category == filters.category)
    else query
  let query :=
    if strTruthy filters.status then
      db.filter (fun t => t.userId == userId && some t.status == filters.status)
    else query
  query.insertionSort createdDesc

/-- Storage `DatabaseStorage.getTask`: first row with the given id. -/
def getTask (db : List Task) (id : Nat) : Option Task :=
  db.find? (fun t => t.id == id)

/-- Storage `DatabaseStorage.getProjects`: the user's projects, newest first. -/
def getProjects (db : List Project) (userId : String) : List Project :=
  (db.filter (fun p => p.userId == userId)).insertionSort projectCreatedDesc

/-- Character-level JavaScript `toLowerCase()` of a string. -/
def lowerChars (s : String) : List Char := s.data.map Char.toLower

/-- JavaScript `String.prototype.includes`: `hay.includes(needle)` — `needle` occurs
contiguously somewhere in `hay`. -/
def strIncludes (hay needle : List Char) : Bool :=
  (List.range (hay.length + 1)).any (fun i => needle.isPrefixOf (hay.drop i))

/-- A `Partial<InsertTask>` update object for the `tasks` table, carrying
exactly the fields the pipeline handlers ever pass to
`storage.updateTask`.  An outer `none` is the JavaScript `undefined`
(field not part of the update — drizzle's `mapUpdateSet` drops it); an
outer `some v` writes `v`, where an inner `none` would write SQL NULL. -/
structure TaskUpdate where
  category : Option String := none
  status : Option String := none
  result : Option (Option String) := none
  errorMessage : Option (Option String) := none
  completedAt : Option (Option Nat) := none
  deriving Repr, DecidableEq

/-- Drizzle `db.update(tasks).set({...updates, updatedAt: new Date()})` applied to
one row: present fields overwrite, `undefined` fields are dropped,
`updatedAt` is always refreshed. -/
def applyTaskUpdate (t : Task) (u : TaskUpdate) (now : Nat) : Task :=
  { t with
    category := u.category.getD t.category
    status := u.status.getD t.status
    result := u.result.getD t.result
    errorMessage := u.errorMessage.getD t.errorMessage
    completedAt := u.completedAt.getD t.completedAt
    updatedAt := now }

/-- Storage `DatabaseStorage.updateTask`: update the row(s) with the given id. -/
def updateTask (db : List Task) (id : Nat) (u : TaskUpdate) (now : Nat) :
    List Task :=
  db.map (fun t => if t.id == id then applyTaskUpdate t u now else t)

/-- The mutable store the pipeline handlers touch, with the serial-id
counters of the `tasks` and `files` tables.  Persistence operations are
modelled as infallible: the spec treats store failures as transport-level
`InfrastructureError`s outside the pipeline's behaviour. -/
structure Store where
  tasks : List Task
  projects : List Project
  files : List FileRec
  socialPosts : List SocialPost
  activityLogs : List ActivityLog
  notifications : List Notification
  nextTaskId : Nat
  nextFileId : Nat
  deriving Repr, DecidableEq

/-- Storage `storage.createActivityLog`. -/
def createActivityLog (st : Store) (l : ActivityLog) : Store :=
  { st with activityLogs := st.activityLogs ++ [l] }

/-- The Claude triage response text as the handler consumes it:
`malformed` covers a throwing API call, text failing `JSON.parse`, and a
parsed JSON `null` (whose field access throws) — all landing in the
handler's catch; `noCategory` is a parsed value whose `category` field is
the JavaScript `undefined`; `withCategory c` is a parsed value carrying
the category value `c` (discretised to strings, the only shape the
classifier is prompted for). -/
inductive TriageResponse
  | malformed
  | noCategory
  | withCategory (category : String)
  deriving Repr, DecidableEq

/-- HTTP outcome of `POST /api/tasks/:id/triage`: 404, the catch-all 500,
or 200 echoing the parsed classifier result (its `category` field shown;
`confidence`/`reasoning` are surfaced transiently and never persisted). -/
inductive TriageHttp
  | notFound
  | serverError
  | ok (category : Option String)
  deriving Repr, DecidableEq

/-- The `POST /api/tasks/:id/triage` handler (`src/server/routes.ts`):
look the task up (404 when absent), call the classifier, `JSON.parse` the
text (a throw lands in the catch: 500 and nothing persisted), then
`updateTask(id, { category: result.category })` and echo the result. -/
def triageHandler (st : Store) (id : Nat) (resp : TriageResponse)
    (now : Nat) : Store × TriageHttp :=
  match getTask st.tasks id with
  | none => (st, .notFound)
  | some _ =>
    match resp with
    | .malformed => (st, .serverError)
    | .noCategory =>
      ({ st with tasks := updateTask st.tasks id { category := none } now },
        .ok none)
    | .withCategory c =>
      ({ st with tasks := updateTask st.tasks id { category := some c } now },
        .ok (some c))

/-- Outcome of the Gemini `generateContent` call in the execute handler:
success carries `response.text` (`none` when the response has no text
part), failure carries the thrown error's message (`error.message`; a
non-`Error` throw yields `"Unknown error"` upstream, subsumed here by the
message parameter). -/
inductive ExecOutcome
  | ok (text : Option String)
  | err (message : String)
  deriving Repr, DecidableEq

/-- The fallback `response.text || "Task executed successfully"`. -/
def execResultText : Option String → String
  | some s => if s = "" then "Task executed successfully" else s
  | none => "Task executed successfully"

/-- HTTP outcome of `POST /api/tasks/:id/execute`: 404, or the HTTP-200
envelope `{success, result?, error?}`. -/
inductive ExecuteHttp
  | notFound
  | ok (success : Bool) (result : Option String) (error : Option String)
  deriving Repr, DecidableEq

/-- The `POST /api/tasks/:id/execute` handler (`src/server/routes.ts`):
404 when the task is absent; otherwise set `status` to `in_progress`,
run the executor, and either persist
`{status: "completed", result, completedAt: new Date()}`, append the
`task_completed` activity-log row and answer `{success: true, result}`,
or — in the catch — persist `{status: "failed", errorMessage}` and answer
`{success: false, error}` with HTTP 200. -/
def executeHandler (st : Store) (reqUserId : String) (id : Nat)
    (outcome : ExecOutcome) (now : Nat) : Store × ExecuteHttp :=
  match getTask st.tasks id with
  | none => (st, .notFound)
  | some task =>
    let st1 : Store :=
      { st with tasks := updateTask st.tasks id { status := some "in_progress" } now }
    match outcome with
    | .ok text =>
      let result := execResultText text
      let doneUpd : TaskUpdate :=
        { status := some "completed", result := some (some result),
          completedAt := some (some now) }
      let logRow : ActivityLog :=
        { userId := reqUserId, action := "task_completed",
          description := "Completed task: " ++ task.title,
          entityType := some "task", entityId := some task.id }
      let st2 : Store := { st1 with tasks := updateTask st1.tasks id doneUpd now }
      (createActivityLog st2 logRow, .ok true (some result) none)
    | .err msg =>
      let failUpd : TaskUpdate :=
        { status := some "failed", errorMessage := some (some msg) }
      let st2 : Store := { st1 with tasks := updateTask st1.tasks id failUpd now }
      (st2, .ok false none (some msg))

/-- One entry of the parsed-tasks JSON returned by the Claude parse call
in `POST /api/drive/import-tasks`.  Fields absent in the JSON are
`none`. -/
structure ParsedEntry where
  title : String
  description : Option String := none
  priority : Option String := none
  projectName : Option String := none
  deriving Repr, DecidableEq

/-- Outcome of the whole parse call: `malformed` covers a throwing API
call, text failing `JSON.parse`, and a parsed value without an iterable
`tasks` field (the `for … of` then throws) — all landing in the handler's
outer catch; otherwise the entry list. -/
inductive ParseOutcome
  | malformed
  | entries (tasks : List ParsedEntry)
  deriving Repr, DecidableEq

/-- Per-entry triage outcome inside the import loop: `fails` when the
Anthropic call or `JSON.parse` throws (swallowed by the per-entry
try/catch, which only logs), `classifies c` when the parsed JSON carries
the category value `c`.  (A parsed response whose `category` field is
absent neither throws nor persists and is not distinguished here — no
settled claim touches it.) -/
inductive ImportTriage
  | fails
  | classifies (category : String)
  deriving Repr, DecidableEq

/-- The category the import loop leaves on a returned task, determined
solely by that task's own triage outcome. -/
def triageCategory : ImportTriage → String
  | .fails => "pending"
  | .classifies c => c

/-- The default `taskData.priority || "medium"`. -/
def entryPriority : Option String → String
  | some p => if p = "" then "medium" else p
  | none => "medium"

/-- The coercion `taskData.description || null`. -/
def entryDescription : Option String → Option String
  | some d => if d = "" then none else some d
  | none => none

/-- The project-matching step of the import loop: when `projectName` is
truthy, look through `storage.getProjects(userId)` for the first project
whose lowercased name contains the lowercased `projectName` as a
substring (`p.name.toLowerCase().includes(...)`); otherwise, and when
nothing matches, the task keeps `projectId = null`.  No project is ever
created here. -/
def resolveProjectId (projects : List Project) (userId : String) :
    Option String → Option Nat
  | none => none
  | some pn =>
    if pn = "" then none
    else
      ((getProjects projects userId).find? (fun p =>
        strIncludes (lowerChars p.name) (lowerChars pn))).map (fun p => p.id)

/-- The `storage.createTask({...})` row built for one parsed entry of
the import loop: matched project or null, `category`/`status` `pending`,
`sourceFile` the imported file's name, priority defaulted by `||`. -/
def taskFromEntry (st : Store) (userId fileName : String)
    (entry : ParsedEntry) (now : Nat) : Task :=
  { id := st.nextTaskId, userId := userId,
    projectId := resolveProjectId st.projects userId entry.projectName,
    title := entry.title, description := entryDescription entry.description,
    category := "pending", status := "pending",
    priority := entryPriority entry.priority,
    sourceFile := some fileName, assignedAgentId := none, result := none,
    errorMessage := none, dueDate := none, completedAt := none,
    createdAt := now, updatedAt := now }

/-- The body of the import loop for one parsed entry: create the task,
then triage it inside its own try/catch — on success persist the category
and mutate the local `task` object (which is what the handler returns),
on a throw just log and continue with the task left at `pending`. -/
def importEntry (st : Store) (userId fileName : String) (entry : ParsedEntry)
    (tr : ImportTriage) (now : Nat) : Store × Task :=
  let t := taskFromEntry st userId fileName entry now
  let st' : Store := { st with tasks := st.tasks ++ [t], nextTaskId := st.nextTaskId + 1 }
  match tr with
  | .fails => (st', t)
  | .classifies c =>
    ({ st' with tasks := updateTask st'.tasks t.id { category := some c } now },
      { t with category := c })

/-- The import loop over all parsed entries; `triages i` is the opaque
triage outcome for the `i`-th entry.  Returns the final store and the
`createdTasks` array the handler responds with. -/
def importLoop (userId fileName : String) (triages : Nat → ImportTriage)
    (now : Nat) : Store → List ParsedEntry → Nat → Store × List Task
  | st, [], _ => (st, [])
  | st, e :: rest, i =>
    let p := importEntry st userId fileName e (triages i) now
    let q := importLoop userId fileName triages now p.1 rest (i + 1)
    (q.1, p.2 :: q.2)

/-- The Google Drive lookups of the import handler: `findFolder`,
`findFileInFolder` (its id) and `getFileContent`. -/
structure DriveEnv where
  folderId : Option String
  driveFileId : Option String
  content : String
  deriving Repr, DecidableEq

/-- HTTP outcome of `POST /api/drive/import-tasks`: the two 404s, the
catch-all 500, or 200 with the saved file's id, the created tasks and the
category summary. -/
inductive ImportHttp
  | folderNotFound
  | fileNotFound
  | serverError
  | ok (fileId : Nat) (tasks : List Task)
      (total autoExecute delegated humanRequired : Nat)
  deriving Repr, DecidableEq

/-- The created-task list of a 200 import response. -/
def ImportHttp.tasksOf : ImportHttp → Option (List Task)
  | .ok _ ts _ _ _ _ => some ts
  | _ => none

/-- The `POST /api/drive/import-tasks` handler (`src/server/routes.ts`):
resolve folder then file (404 each), persist the fetched content as a
`google_drive`/`input` File row, parse it with Claude (a throw lands in
the outer catch: 500, the File row already persisted), run the per-entry
create-and-triage loop, then append one `file_processed` activity-log row
and one `info` "Tasks Imported" notification and answer with the file,
the tasks and the per-category summary. -/
def importHandler (st : Store) (userId fileName : String) (env : DriveEnv)
    (parse : ParseOutcome) (triages : Nat → ImportTriage) (now : Nat) :
    Store × ImportHttp :=
  match env.folderId with
  | none => (st, .folderNotFound)
  | some _ =>
    match env.driveFileId with
    | none => (st, .fileNotFound)
    | some driveId =>
      let savedFile : FileRec :=
        { id := st.nextFileId, userId := userId, name := fileName,
          source := "google_drive", googleDriveId := some driveId,
          content := some env.content, type := "input" }
      let st0 : Store :=
        { st with files := st.files ++ [savedFile], nextFileId := st.nextFileId + 1 }
      match parse with
      | .malformed => (st0, .serverError)
      | .entries entries =>
        let r := importLoop userId fileName triages now st0 entries 0
        let logRow : ActivityLog :=
          { userId := userId, action := "file_processed",
            description :=
              "Imported " ++ toString r.2.length ++ " tasks from " ++ fileName,
            entityType := some "file", entityId := some savedFile.id }
        let notif : Notification :=
          { userId := userId, type := "info", title := "Tasks Imported",
            message :=
              "Successfully imported " ++ toString r.2.length
                ++ " tasks from " ++ fileName }
        let st1 := createActivityLog r.1 logRow
        let st2 : Store := { st1 with notifications := st1.notifications ++ [notif] }
        (st2, .ok savedFile.id r.2 r.2.length
          (r.2.filter (fun t => t.category == "auto_execute")).length
          (r.2.filter (fun t => t.category == "delegate_agent")).length
          (r.2.filter (fun t => t.category == "human_required")).length)

/-- Outcome of one Gemini generation call in `generate-posts`. -/
inductive GenOutcome
  | ok (text : Option String)
  | err
  deriving Repr, DecidableEq

/-- The text of a successful generation (`response.text`). -/
def GenOutcome.textOf : GenOutcome → Option String
  | .ok t => t
  | .err => none

/-- The fixed, ordered platform set of the generate-posts loop. -/
def platforms : List String :=
  ["x", "facebook", "linkedin", "instagram", "tiktok_script", "youtube_script"]

/-- The `storage.createSocialPost({...})` row for one platform:
`content: response.text || ""`, `status: "draft"`. -/
def mkPost (userId : String) (fileId : Nat) (platform : String)
    (o : GenOutcome) : SocialPost :=
  { userId := userId, masterDocumentId := fileId, platform := platform,
    content := o.textOf.getD "", status := "draft" }

/-- HTTP outcome of `POST /api/files/:id/generate-posts`. -/
inductive PostsHttp
  | notFound
  | serverError
  | ok (posts : List SocialPost)
  deriving Repr, DecidableEq

/-- The platform loop of generate-posts: one Gemini call per platform in
order (`gen i` is the opaque outcome of the `i`-th call); each success is
persisted as a draft post and collected, while the first throwing call
jumps out of the loop into the handler's single catch (`none`), leaving
the earlier inserts in place. -/
def postsLoop (userId : String) (fileId : Nat) (gen : Nat → GenOutcome) :
    Store → List String → Nat → List SocialPost →
    Store × Option (List SocialPost)
  | st, [], _, acc => (st, some acc)
  | st, platform :: rest, i, acc =>
    match gen i with
    | .err => (st, none)
    | .ok text =>
      let post := mkPost userId fileId platform (.ok text)
      let st' : Store := { st with socialPosts := st.socialPosts ++ [post] }
      postsLoop userId fileId gen st' rest (i + 1) (acc ++ [post])

/-- The list of draft posts the loop produces for a platform segment when
no call in it fails, starting at call index `i`. -/
def draftPostsFor (userId : String) (fileId : Nat) (gen : Nat → GenOutcome) :
    List String → Nat → List SocialPost
  | [], _ => []
  | platform :: rest, i =>
    mkPost userId fileId platform (gen i) ::
      draftPostsFor userId fileId gen rest (i + 1)

/-- The `POST /api/files/:id/generate-posts` handler
(`src/server/routes.ts`): 404 when the file is absent, then the
sequential platform loop inside one try/catch — a throw anywhere answers
500 (posts already created remain), completion answers 200 with the
created posts. -/
def generatePostsHandler (st : Store) (userId : String) (id : Nat)
    (gen : Nat → GenOutcome) : Store × PostsHttp :=
  match st.files.find? (fun f => f.id == id) with
  | none => (st, .notFound)
  | some _ =>
    let r := postsLoop userId id gen st platforms 0 []
    match r.2 with
    | none => (r.1, .serverError)
    | some posts => (r.1, .ok posts)

/-- The fields of the `POST /api/tasks` create handler that the pipeline
supplies; the remaining columns take the schema defaults
(`category`/`status` `pending`, no result, error or completion). -/
structure NewTask where
  userId : String
  projectId : Option Nat := none
  title : String
  description : Option String := none
  priority : String := "medium"
  sourceFile : Option String := none
  deriving Repr, DecidableEq

/-- Storage `storage.createTask` for a pipeline creation: insert a fresh row with
the schema's state-machine defaults. -/
def createTask (st : Store) (nt : NewTask) (now : Nat) : Store × Task :=
  let t : Task :=
    { id := st.nextTaskId, userId := nt.userId, projectId := nt.projectId,
      title := nt.title, description := nt.description, category := "pending",
      status := "pending", priority := nt.priority,
      sourceFile := nt.sourceFile, assignedAgentId := none, result := none,
      errorMessage := none, dueDate := none, completedAt := none,
      createdAt := now, updatedAt := now }
  ({ st with tasks := st.tasks ++ [t], nextTaskId := st.nextTaskId + 1 }, t)

/-- One pipeline operation on the store — a task creation or a
UI-triggered triage/execute call — with its opaque collaborator outcome
and timestamp. -/
inductive PipelineOp
  | create (nt : NewTask) (now : Nat)
  | triage (id : Nat) (resp : TriageResponse) (now : Nat)
  | execute (reqUserId : String) (id : Nat) (outcome : ExecOutcome) (now : Nat)

/-- The store after one pipeline operation. -/
def applyOp (st : Store) : PipelineOp → Store
  | .create nt now => (createTask st nt now).1
  | .triage id resp now => (triageHandler st id resp now).1
  | .execute u id outcome now => (executeHandler st u id outcome now).1

/-- The store after a sequence of pipeline operations. -/
def runOps (st : Store) (ops : List PipelineOp) : Store :=
  ops.foldl applyOp st

/-- One side of the completion invariant, per task: a `completed` status
comes with a completion timestamp. -/
def completionOkB (t : Task) : Bool :=
  t.status != "completed" || t.completedAt.isSome

/-- Predicate `completionOkB` over a whole task table. -/
def tasksCompletionOk (ts : List Task) : Bool := ts.all completionOkB

/-- The four-value category domain of the schema. -/
def categoryDomain : List String :=
  ["pending", "auto_execute", "delegate_agent", "human_required"]

/-- The three classifier enum values the triage prompt asks for. -/
def classifierEnum : List String :=
  ["auto_execute", "delegate_agent", "human_required"]

/-- Membership of a category string in a domain list. -/
def inDomain (dom : List String) (c : String) : Bool :=
  dom.any (fun d => d == c)

/-- Every task of a table carries a category from the schema domain. -/
def categoriesOk (ts : List Task) : Bool :=
  ts.all (fun t => inDomain categoryDomain t.category)

/-- The classifier response carries no category outside the three enum
values it is prompted for. -/
def respEnumOk : TriageResponse → Bool
  | .withCategory c => inDomain classifierEnum c
  | _ => true

end SprintCOO

namespace SprintCOO

/-! ## Concrete instances used by witnesses and counterexamples -/

/-- A concrete pending task owned by `alice`. -/
def sTask : Task :=
  { id := 1, userId := "alice", projectId := none,
    title := "Generate startup descriptions",
    description := some "scrape site, <500 words", category := "pending",
    status := "pending", priority := "medium", sourceFile := none,
    assignedAgentId := none, result := none, errorMessage := none,
    dueDate := none, completedAt := none, createdAt := 0, updatedAt := 0 }

/-- A concrete task owned by another user. -/
def sTaskBob : Task := { sTask with id := 2, userId := "bob" }

/-- A concrete failed task carrying an error message. -/
def sFailedTask : Task :=
  { sTask with id := 3, status := "failed", errorMessage := some "quota exceeded" }

/-- An empty store. -/
def emptyStore : Store :=
  { tasks := [], projects := [], files := [], socialPosts := [],
    activityLogs := [], notifications := [], nextTaskId := 1, nextFileId := 1 }

/-- A store holding the three sample tasks. -/
def sStore : Store :=
  { emptyStore with tasks := [sTask, sTaskBob, sFailedTask], nextTaskId := 4 }

/-- A concrete project named "Acme Corp" owned by `alice`. -/
def sProject : Project :=
  { id := 7, userId := "alice", name := "Acme Corp", createdAt := 0 }

/-- A store holding the sample project. -/
def sProjStore : Store := { emptyStore with projects := [sProject] }

/-- A concrete parsed import entry naming the sample project by a
case-insensitive fragment of its name. -/
def sEntry : ParsedEntry :=
  { title := "Ship deck", description := none, priority := some "high",
    projectName := some "acme" }

/-- A concrete file eligible for generate-posts. -/
def sFile : FileRec :=
  { id := 1, userId := "alice", name := "doc.md", source := "upload",
    googleDriveId := none, content := some "X", type := "input" }

/-- A store holding the sample file. -/
def sFileStore : Store := { emptyStore with files := [sFile], nextFileId := 2 }

end SprintCOO

namespace SprintCOO

/-! ## Helper lemmas -/

@[simp] theorem applyTaskUpdate_id (t : Task) (u : TaskUpdate) (now : Nat) :
    (applyTaskUpdate t u now).id = t.id := rfl

@[simp] theorem strTruthy_none : strTruthy none = false := rfl

@[simp] theorem natTruthy_none : natTruthy none = false := rfl

/-- Every row of an updated table is either the update of an original row
or an untouched original row. -/
theorem mem_updateTask {db : List Task} {id : Nat} {u : TaskUpdate}
    {now : Nat} {t' : Task} (h : t' ∈ updateTask db id u now) :
    (∃ t ∈ db, t' = applyTaskUpdate t u now) ∨ t' ∈ db := by
  obtain ⟨t, ht, rfl⟩ := List.mem_map.mp h
  by_cases hid : (t.id == id) = true
  · exact Or.inl ⟨t, ht, by simp [hid]⟩
  · right
    simpa [hid] using ht

/-- An id lookup after an update of that id finds the updated original. -/
theorem getTask_updateTask (db : List Task) (id : Nat) (u : TaskUpdate)
    (now : Nat) :
    getTask (updateTask db id u now) id =
      (getTask db id).map (fun t => applyTaskUpdate t u now) := by
  unfold getTask updateTask
  induction db with
  | nil => rfl
  | cons t ts ih =>
    rw [List.map_cons, List.find?_cons, List.find?_cons]
    by_cases hid : (t.id == id) = true
    · rw [if_pos hid]
      have h2 : ((applyTaskUpdate t u now).id == id) = true := by
        rw [applyTaskUpdate_id]; exact hid
      rw [h2, hid]
      rfl
    · have hid' : (t.id == id) = false := by
        simpa using hid
      rw [if_neg hid, hid']
      exact ih

/-! ## C9 — tenant isolation of the task list -/

/-- C9. Tenant isolation: for every user `A` and every combination of
`projectId`/`category`/`status` filters, `getTasks` scoped to `A` never
returns a task whose `userId` differs from `A` — every filter branch of
the query conjoins the `userId` condition. -/
theorem tenant_isolation_getTasks (db : List Task) (userId : String)
    (filters : TaskFilters) (t : Task) (ht : t ∈ getTasks db userId filters) :
    t.userId = userId := by
  unfold getTasks at ht
  rw [List.mem_insertionSort] at ht
  repeat' split at ht
  all_goals
    have hmem := (List.mem_filter.mp ht).2
    simp only [Bool.and_eq_true, beq_iff_eq] at hmem
    first
      | exact hmem.1
      | exact hmem

/-- Witness for `tenant_isolation_getTasks`: a concrete task returned by a
concrete `getTasks` call indeed carries the querying user's id. -/
theorem tenant_isolation_getTasks_witness :
    sTask ∈ getTasks [sTask, sTaskBob] "alice" ⟨none, none, none⟩ ∧
      sTask.userId = "alice" :=
  ⟨by decide,
    tenant_isolation_getTasks [sTask, sTaskBob] "alice" ⟨none, none, none⟩
      sTask (by decide)⟩

/-! ## C10 — filter precedence of the task list -/

/-- C10. When several filters are truthy, only one is applied on top of
the `userId` scope: each truthy filter rebuilds the query from scratch, so
`status` overrides `category`, which overrides `projectId`.  In particular
a query with both a `category` and a `status` filter returns every task of
the user with that status, regardless of category. -/
theorem getTasks_filter_precedence (db : List Task) (userId : String)
    (f : TaskFilters) :
    (strTruthy f.status = true →
      getTasks db userId f = getTasks db userId ⟨none, none, f.status⟩) ∧
    (strTruthy f.status = false → strTruthy f.category = true →
      getTasks db userId f = getTasks db userId ⟨none, f.category, none⟩) ∧
    (strTruthy f.status = false → strTruthy f.category = false →
      getTasks db userId f = getTasks db userId ⟨f.projectId, none, none⟩) := by
  refine ⟨fun hs => ?_, fun hs hc => ?_, fun hs hc => ?_⟩
  · simp [getTasks, hs]
  · simp [getTasks, hs, hc]
  · simp [getTasks, hs, hc]

/-- Witness for `getTasks_filter_precedence`: with both a category and a
status filter set, the concrete query collapses to the status-only one. -/
theorem getTasks_filter_precedence_witness :
    strTruthy (some "pending") = true ∧
      getTasks sStore.tasks "alice" ⟨some 1, some "auto_execute", some "pending"⟩ =
        getTasks sStore.tasks "alice" ⟨none, none, some "pending"⟩ :=
  ⟨by decide,
    (getTasks_filter_precedence sStore.tasks "alice"
      ⟨some 1, some "auto_execute", some "pending"⟩).1 (by decide)⟩

/-! ## C1 — execute failure is reported, not thrown -/

/-- C1. When the task exists and the Executor call fails, the execute
handler persists `status = "failed"` with the failure's message in
`errorMessage`, leaves `result` and `completedAt` untouched (the update
object carries neither field), and answers the HTTP-success envelope
`{success: false, error}`; only a missing task yields a 404 — the
Executor failure itself never becomes a request failure. -/
theorem execute_failure_reported (st : Store) (uid : String) (id : Nat)
    (msg : String) (now : Nat) :
    (∀ t, getTask st.tasks id = some t →
      (executeHandler st uid id (.err msg) now).2 =
          ExecuteHttp.ok false none (some msg) ∧
      getTask (executeHandler st uid id (.err msg) now).1.tasks id =
        some { t with status := "failed", errorMessage := some msg, updatedAt := now }) ∧
    (getTask st.tasks id = none →
      executeHandler st uid id (.err msg) now = (st, ExecuteHttp.notFound)) := by
  constructor
  · intro t ht
    simp only [executeHandler, ht, getTask_updateTask]
    refine ⟨?_, ?_⟩ <;> first | rfl | trivial
  · intro h
    simp only [executeHandler, h]

/-- Witness for `execute_failure_reported` on a concrete pending task. -/
theorem execute_failure_reported_witness :
    getTask sStore.tasks 1 = some sTask ∧
    (executeHandler sStore "alice" 1 (.err "quota exceeded") 9).2 =
        ExecuteHttp.ok false none (some "quota exceeded") ∧
    getTask (executeHandler sStore "alice" 1 (.err "quota exceeded") 9).1.tasks 1 =
      some { sTask with status := "failed", errorMessage := some "quota exceeded", updatedAt := 9 } :=
  ⟨by decide,
    ((execute_failure_reported sStore "alice" 1 "quota exceeded" 9).1 sTask
      (by decide)).1,
    ((execute_failure_reported sStore "alice" 1 "quota exceeded" 9).1 sTask
      (by decide)).2⟩

/-! ## C2 — execute success path (corrected: `errorMessage` not cleared) -/

/-- C2 counterexample. Re-executing the previously failed task
`sFailedTask` (`errorMessage = "quota exceeded"`) with a succeeding
Executor leaves the stale `errorMessage` in place next to
`status = "completed"`: the success-path update object carries no
`errorMessage` field, so the claim that a successful re-execution leaves
`errorMessage` absent is false. -/
theorem execute_success_keeps_errorMessage :
    (getTask (executeHandler sStore "alice" 3
        (.ok (some "Report generated.")) 7).1.tasks 3).map
      (fun t => (t.status, t.errorMessage)) =
    some ("completed", some "quota exceeded") := by decide

/-- C2 (amended). When the task exists and the Executor succeeds, the
execute handler sets `status = "completed"`, stores the Executor's text in
`result`, sets `completedAt` to the current time, appends exactly one
`task_completed` activity-log row and answers `{success: true, result}` —
but a prior `errorMessage` is left untouched, not cleared (every other
field of the row is likewise carried over). -/
theorem execute_success_path (st : Store) (uid : String) (id : Nat)
    (text : Option String) (now : Nat) (t : Task)
    (ht : getTask st.tasks id = some t) :
    (executeHandler st uid id (.ok text) now).2 =
      ExecuteHttp.ok true (some (execResultText text)) none ∧
    getTask (executeHandler st uid id (.ok text) now).1.tasks id =
      some { t with status := "completed", result := some (execResultText text), completedAt := some now, updatedAt := now } ∧
    (executeHandler st uid id (.ok text) now).1.activityLogs =
      st.activityLogs ++
        [{ userId := uid, action := "task_completed", description := "Completed task: " ++ t.title, entityType := some "task", entityId := some t.id }] := by
  simp only [executeHandler, ht, getTask_updateTask, createActivityLog]
  refine ⟨?_, ?_, ?_⟩ <;> first | rfl | trivial

/-- Witness for `execute_success_path` on a concrete pending task. -/
theorem execute_success_path_witness :
    getTask sStore.tasks 1 = some sTask ∧
    (executeHandler sStore "alice" 1 (.ok (some "Report generated.")) 5).2 =
      ExecuteHttp.ok true (some (execResultText (some "Report generated."))) none :=
  ⟨by decide,
    (execute_success_path sStore "alice" 1 (some "Report generated.") 5 sTask
      (by decide)).1⟩

/-! ## C3 — completion invariant (corrected: forward direction only) -/

/-- C3 counterexample. The pipeline sequence create →
execute(success) → execute(failure) ends with `status = "failed"` while
`completedAt` is still set (the failure path never clears it): the
biconditional `status = completed ⟺ completedAt set` is false. -/
theorem completion_iff_fails :
    ((runOps emptyStore
        [PipelineOp.create { userId := "alice", title := "t" } 1,
         PipelineOp.execute "alice" 1 (.ok (some "done")) 2,
         PipelineOp.execute "alice" 1 (.err "quota exceeded") 3]).tasks.map
      (fun t => (t.status, t.completedAt))) = [("failed", some 2)] := by decide

/-- Predicate `completionOkB` is untouched by an update that writes neither
`status` nor `completedAt`. -/
theorem completionOkB_applyTaskUpdate_none {u : TaskUpdate} (t : Task)
    (now : Nat) (hs : u.status = none) (hc : u.completedAt = none) :
    completionOkB (applyTaskUpdate t u now) = completionOkB t := by
  simp [completionOkB, applyTaskUpdate, hs, hc]

/-- A table-wide update preserves `tasksCompletionOk` when the update
keeps every updated row individually fine. -/
theorem tasksCompletionOk_updateTask {db : List Task} {id : Nat}
    {u : TaskUpdate} {now : Nat} (h : tasksCompletionOk db = true)
    (hok : ∀ t ∈ db, completionOkB (applyTaskUpdate t u now) = true) :
    tasksCompletionOk (updateTask db id u now) = true := by
  unfold tasksCompletionOk updateTask
  rw [List.all_eq_true]
  intro x hx
  obtain ⟨t, ht, rfl⟩ := List.mem_map.mp hx
  by_cases hid : (t.id == id) = true
  · simpa [hid] using hok t ht
  · simpa [hid] using List.all_eq_true.mp h t ht

/-- Every pipeline operation preserves the forward completion
invariant. -/
theorem applyOp_completionOk {st : Store} (op : PipelineOp)
    (h : tasksCompletionOk st.tasks = true) :
    tasksCompletionOk (applyOp st op).tasks = true := by
  cases op with
  | create nt now =>
    unfold applyOp createTask tasksCompletionOk
    rw [List.all_append]
    unfold tasksCompletionOk at h
    rw [h]
    rfl
  | triage id resp now =>
    cases hg : getTask st.tasks id with
    | none =>
      simpa only [applyOp, triageHandler, hg] using h
    | some tk =>
      cases resp with
      | malformed => simpa only [applyOp, triageHandler, hg] using h
      | noCategory =>
        simp only [applyOp, triageHandler, hg]
        refine tasksCompletionOk_updateTask h (fun t ht => ?_)
        rw [completionOkB_applyTaskUpdate_none t now rfl rfl]
        exact List.all_eq_true.mp h t ht
      | withCategory c =>
        simp only [applyOp, triageHandler, hg]
        refine tasksCompletionOk_updateTask h (fun t ht => ?_)
        rw [completionOkB_applyTaskUpdate_none t now rfl rfl]
        exact List.all_eq_true.mp h t ht
  | execute uid id outcome now =>
    cases hg : getTask st.tasks id with
    | none =>
      simpa only [applyOp, executeHandler, hg] using h
    | some tk =>
      cases outcome with
      | ok text =>
        simp only [applyOp, executeHandler, hg, createActivityLog]
        refine tasksCompletionOk_updateTask ?_ (fun t _ => rfl)
        exact tasksCompletionOk_updateTask h (fun t _ => rfl)
      | err msg =>
        simp only [applyOp, executeHandler, hg]
        refine tasksCompletionOk_updateTask ?_ (fun t _ => rfl)
        exact tasksCompletionOk_updateTask h (fun t _ => rfl)

/-- C3 (amended). After any sequence of create/triage/execute pipeline
operations from a store satisfying it, every task with
`status = "completed"` has `completedAt` set.  The converse direction of
the claimed biconditional — `completedAt` set only on completed tasks —
is refuted by `completion_iff_fails`. -/
theorem completion_forward_invariant (st : Store) (ops : List PipelineOp)
    (h : tasksCompletionOk st.tasks = true) :
    tasksCompletionOk (runOps st ops).tasks = true := by
  induction ops generalizing st with
  | nil => exact h
  | cons op rest ih => exact ih _ (applyOp_completionOk op h)

/-- Witness for `completion_forward_invariant` on a concrete store and
operation sequence. -/
theorem completion_forward_invariant_witness :
    tasksCompletionOk sStore.tasks = true ∧
    tasksCompletionOk (runOps sStore
      [PipelineOp.execute "alice" 1 (.ok (some "done")) 2]).tasks = true :=
  ⟨by decide, completion_forward_invariant sStore _ (by decide)⟩

/-! ## C4 — category domain after triage (corrected: unvalidated) -/

/-- C4 counterexample. The triage handler persists `result.category`
without validating it against the enum: a well-formed classifier response
carrying the category `"bogus"` is stored verbatim, leaving the task's
category outside the four-value domain. -/
theorem triage_persists_bogus_category :
    (getTask (triageHandler sStore 1 (.withCategory "bogus") 4).1.tasks 1).map
      (fun t => t.category) = some "bogus" ∧
    inDomain categoryDomain "bogus" = false := by decide

/-- A table-wide update preserves a per-row predicate when the update
keeps every updated row individually fine. -/
theorem all_updateTask {p : Task → Bool} {db : List Task} {id : Nat}
    {u : TaskUpdate} {now : Nat} (h : db.all p = true)
    (hok : ∀ t ∈ db, p (applyTaskUpdate t u now) = true) :
    (updateTask db id u now).all p = true := by
  unfold updateTask
  rw [List.all_eq_true]
  intro x hx
  obtain ⟨t, ht, rfl⟩ := List.mem_map.mp hx
  by_cases hid : (t.id == id) = true
  · simpa [hid] using hok t ht
  · simpa [hid] using List.all_eq_true.mp h t ht

/-- The three classifier enum values sit inside the four-value schema
domain. -/
theorem inDomain_of_enum {c : String}
    (h : inDomain classifierEnum c = true) :
    inDomain categoryDomain c = true := by
  simp only [inDomain, classifierEnum, categoryDomain, List.any_cons,
    List.any_nil, Bool.or_eq_true, beq_iff_eq] at h ⊢
  rcases h with h | h | h | h
  · exact Or.inr (Or.inl h)
  · exact Or.inr (Or.inr (Or.inl h))
  · exact Or.inr (Or.inr (Or.inr (Or.inl h)))
  · exact absurd h (by simp)

/-- C4 (amended). The category domain is preserved by a triage call
only conditionally: when every stored category is in the domain and the
classifier's response either fails, carries no category, or carries one of
the three enum values, every stored category is still in the domain
afterwards.  An out-of-enum category in a well-formed response is
persisted verbatim (see `triage_persists_bogus_category`). -/
theorem triage_category_domain (st : Store) (id : Nat)
    (resp : TriageResponse) (now : Nat)
    (hprev : categoriesOk st.tasks = true)
    (henum : respEnumOk resp = true) :
    categoriesOk (triageHandler st id resp now).1.tasks = true := by
  cases hg : getTask st.tasks id with
  | none => simpa only [triageHandler, hg] using hprev
  | some tk =>
    cases resp with
    | malformed => simpa only [triageHandler, hg] using hprev
    | noCategory =>
      simp only [triageHandler, hg]
      exact all_updateTask hprev (fun t ht => List.all_eq_true.mp hprev t ht)
    | withCategory c =>
      simp only [triageHandler, hg]
      refine all_updateTask hprev (fun t ht => ?_)
      exact inDomain_of_enum henum

/-- Witness for `triage_category_domain` with an in-enum classifier
response on a concrete store. -/
theorem triage_category_domain_witness :
    categoriesOk sStore.tasks = true ∧
    respEnumOk (.withCategory "auto_execute") = true ∧
    categoriesOk (triageHandler sStore 1 (.withCategory "auto_execute") 4).1.tasks = true :=
  ⟨by decide, by decide,
    triage_category_domain sStore 1 (.withCategory "auto_execute") 4
      (by decide) (by decide)⟩

/-! ## C5 — malformed classifier output (corrected: only parse throws 500) -/

/-- C5 counterexample. A classifier response that is well-formed JSON
but lacks the expected `category` field does not fail the triage as a
whole: the handler answers 200 echoing the parsed value, not a
500-equivalent. -/
theorem triage_wrong_shape_no_500 :
    (triageHandler sStore 1 TriageResponse.noCategory 5).2 = TriageHttp.ok none ∧
    ¬(triageHandler sStore 1 TriageResponse.noCategory 5).2 = TriageHttp.serverError := by
  decide

/-- C5 (amended). Only a classifier response whose text fails
`JSON.parse` (or parses to `null`) fails the triage as a whole with a
500-equivalent, and then nothing at all is persisted; a parseable
response lacking a `category` field instead answers 200 — but in that
case, too, every task's stored category (and status) is left unchanged,
so in no case does a partial category persistence occur. -/
theorem triage_no_partial_persistence (st : Store) (id : Nat) (now : Nat)
    (t : Task) (ht : getTask st.tasks id = some t) :
    triageHandler st id TriageResponse.malformed now = (st, TriageHttp.serverError) ∧
    (triageHandler st id TriageResponse.noCategory now).2 = TriageHttp.ok none ∧
    ((triageHandler st id TriageResponse.noCategory now).1.tasks.map
        (fun x => (x.id, x.category, x.status))) =
      st.tasks.map (fun x => (x.id, x.category, x.status)) := by
  refine ⟨?_, ?_, ?_⟩
  · simp only [triageHandler, ht]
  · simp only [triageHandler, ht]
  · simp only [triageHandler, ht, updateTask, List.map_map]
    refine List.map_congr_left (fun x hx => ?_)
    by_cases hid : x.id = id
    · simp [hid, applyTaskUpdate]
    · simp [hid]

/-- Witness for `triage_no_partial_persistence` on a concrete store. -/
theorem triage_no_partial_persistence_witness :
    getTask sStore.tasks 1 = some sTask ∧
    triageHandler sStore 1 TriageResponse.malformed 5 = (sStore, TriageHttp.serverError) :=
  ⟨by decide, (triage_no_partial_persistence sStore 1 5 sTask (by decide)).1⟩

/-! ## C6 — import batch independence -/

/-- One import-loop entry's returned category is determined solely by its
own triage outcome. -/
theorem importEntry_category (st : Store) (uid fn : String)
    (e : ParsedEntry) (tr : ImportTriage) (now : Nat) :
    (importEntry st uid fn e tr now).2.category = triageCategory tr := by
  cases tr <;> rfl

/-- The categories of the tasks the import loop returns, entry by entry:
the `j`-th returned task's category depends only on `triages (i + j)`. -/
theorem importLoop_categories (uid fn : String) (triages : Nat → ImportTriage)
    (now : Nat) : ∀ (entries : List ParsedEntry) (st : Store) (i : Nat),
    (importLoop uid fn triages now st entries i).2.map (fun t => t.category) =
      (List.range entries.length).map (fun j => triageCategory (triages (i + j))) := by
  intro entries
  induction entries with
  | nil => intro st i; rfl
  | cons e es ih =>
    intro st i
    simp only [importLoop, List.map_cons, List.length_cons,
      List.range_succ_eq_map, importEntry_category, ih, List.map_map,
      Nat.add_zero]
    congr 1
    refine List.map_congr_left (fun j _ => ?_)
    simp only [Function.comp_apply]
    have harith : i + Nat.succ j = i + 1 + j := by omega
    rw [harith]

/-- The import loop touches only the `tasks` table (and its id counter):
logs, notifications, projects and files are left as they were. -/
theorem importLoop_frame (uid fn : String) (triages : Nat → ImportTriage)
    (now : Nat) : ∀ (entries : List ParsedEntry) (st : Store) (i : Nat),
    (importLoop uid fn triages now st entries i).1.activityLogs = st.activityLogs ∧
    (importLoop uid fn triages now st entries i).1.notifications = st.notifications ∧
    (importLoop uid fn triages now st entries i).1.projects = st.projects ∧
    (importLoop uid fn triages now st entries i).1.files = st.files := by
  intro entries
  induction entries with
  | nil => intro st i; exact ⟨rfl, rfl, rfl, rfl⟩
  | cons e es ih =>
    intro st i
    have hstep := ih (importEntry st uid fn e (triages i) now).1 (i + 1)
    have hentry :
        (importEntry st uid fn e (triages i) now).1.activityLogs = st.activityLogs ∧
        (importEntry st uid fn e (triages i) now).1.notifications = st.notifications ∧
        (importEntry st uid fn e (triages i) now).1.projects = st.projects ∧
        (importEntry st uid fn e (triages i) now).1.files = st.files := by
      cases h : triages i <;> simp [importEntry, h]
    simp only [importLoop]
    exact ⟨hstep.1.trans hentry.1, hstep.2.1.trans hentry.2.1,
      hstep.2.2.1.trans hentry.2.2.1, hstep.2.2.2.trans hentry.2.2.2⟩

/-- The number of tasks the import loop returns equals the number of
parsed entries. -/
theorem importLoop_length (uid fn : String) (triages : Nat → ImportTriage)
    (now : Nat) (entries : List ParsedEntry) (st : Store) (i : Nat) :
    (importLoop uid fn triages now st entries i).2.length = entries.length := by
  have h := congrArg List.length (importLoop_categories uid fn triages now entries st i)
  simpa using h

/-- C6. Import batch independence: with folder and file resolved and
the parse call yielding `entries`, the `j`-th created task's final
category depends only on the `j`-th triage outcome — `"pending"` when
that triage fails, the classified category when it succeeds — so one
entry's classification failure neither aborts the batch nor affects any
other entry; the response still carries the full task list, and
the import still appends its `file_processed` activity-log row and its
"Tasks Imported" notification. -/
theorem import_batch_independence (st : Store) (uid fileName : String)
    (folderId driveId content : String) (entries : List ParsedEntry)
    (triages : Nat → ImportTriage) (now : Nat) :
    ((importHandler st uid fileName ⟨some folderId, some driveId, content⟩
        (.entries entries) triages now).2.tasksOf.map
      (fun ts => ts.map (fun t => t.category))) =
      some ((List.range entries.length).map (fun j => triageCategory (triages j))) ∧
    ((importHandler st uid fileName ⟨some folderId, some driveId, content⟩
        (.entries entries) triages now).2.tasksOf.map List.length) =
      some entries.length ∧
    (importHandler st uid fileName ⟨some folderId, some driveId, content⟩
        (.entries entries) triages now).1.activityLogs =
      st.activityLogs ++
        [{ userId := uid, action := "file_processed", description := "Imported " ++ toString entries.length ++ " tasks from " ++ fileName, entityType := some "file", entityId := some st.nextFileId }] ∧
    (importHandler st uid fileName ⟨some folderId, some driveId, content⟩
        (.entries entries) triages now).1.notifications =
      st.notifications ++
        [{ userId := uid, type := "info", title := "Tasks Imported", message := "Successfully imported " ++ toString entries.length ++ " tasks from " ++ fileName }] := by
  simp only [importHandler, ImportHttp.tasksOf, Option.map_some', createActivityLog]
  refine ⟨?_, ?_, ?_, ?_⟩
  · rw [importLoop_categories]
    exact congrArg _ (List.map_congr_left (fun j _ => by rw [Nat.zero_add]))
  · exact congrArg some (importLoop_length uid fileName triages now entries _ 0)
  · rw [(importLoop_frame uid fileName triages now entries _ 0).1,
      importLoop_length]
  · rw [(importLoop_frame uid fileName triages now entries _ 0).2.1,
      importLoop_length]

/-! ## C7 — import task creation (corrected: invalid priority kept) -/

/-- C7 counterexample. An entry whose parsed `priority` is the
invalid string `"banana"` is persisted with that priority verbatim:
`taskData.priority || "medium"` only replaces absent (or empty) values,
so an invalid priority is not defaulted to `"medium"`. -/
theorem import_invalid_priority_kept :
    (taskFromEntry emptyStore "alice" "tasks.txt"
        { title := "t", priority := some "banana" } 0).priority = "banana" ∧
    inDomain ["low", "medium", "high", "urgent"] "banana" = false := by decide

/-- C7 (amended). For each parsed import entry, the created task has
`category = "pending"`, `status = "pending"`, `sourceFile` equal to
the imported file name, and `projectId` resolved against the importing user's
projects by case-insensitive substring match on the project name — never
auto-creating a project (the projects table is unchanged) and staying
`null` when nothing matches; `priority` is defaulted to `"medium"` only
when the parsed priority is absent or empty, while any other (possibly
invalid) priority string is persisted verbatim. -/
theorem import_entry_task_shape (st : Store) (uid fileName : String)
    (entry : ParsedEntry) (tr : ImportTriage) (now : Nat) :
    (taskFromEntry st uid fileName entry now).category = "pending" ∧
    (taskFromEntry st uid fileName entry now).status = "pending" ∧
    (taskFromEntry st uid fileName entry now).sourceFile = some fileName ∧
    ((entry.priority = none ∨ entry.priority = some "") →
      (taskFromEntry st uid fileName entry now).priority = "medium") ∧
    (∀ p, entry.priority = some p → ¬p = "" →
      (taskFromEntry st uid fileName entry now).priority = p) ∧
    (taskFromEntry st uid fileName entry now).projectId =
      resolveProjectId st.projects uid entry.projectName ∧
    (∀ pid, resolveProjectId st.projects uid entry.projectName = some pid →
      ∃ pr ∈ st.projects, pr.userId = uid ∧ pr.id = pid ∧
        strIncludes (lowerChars pr.name)
          (lowerChars (entry.projectName.getD "")) = true) ∧
    ((∀ pr ∈ st.projects, pr.userId = uid →
        strIncludes (lowerChars pr.name)
          (lowerChars (entry.projectName.getD "")) = false) →
      resolveProjectId st.projects uid entry.projectName = none) ∧
    (importEntry st uid fileName entry tr now).1.projects = st.projects := by
  refine ⟨rfl, rfl, rfl, ?_, ?_, rfl, ?_, ?_, ?_⟩
  · intro h
    rcases h with h | h <;> simp [taskFromEntry, entryPriority, h]
  · intro p hp hne
    simp [taskFromEntry, entryPriority, hp, hne]
  · intro pid hpid
    cases hpn : entry.projectName with
    | none => rw [hpn] at hpid; cases hpid
    | some pn =>
      rw [hpn] at hpid
      simp only [resolveProjectId] at hpid
      by_cases hempty : pn = ""
      · rw [if_pos hempty] at hpid; cases hpid
      · rw [if_neg hempty] at hpid
        obtain ⟨p, hfind, hpidEq⟩ := Option.map_eq_some'.mp hpid
        have hmem0 := List.mem_of_find?_eq_some hfind
        have hpred := List.find?_some hfind
        unfold getProjects at hmem0
        rw [List.mem_insertionSort] at hmem0
        obtain ⟨hmem, huid⟩ := List.mem_filter.mp hmem0
        exact ⟨p, hmem, by simpa using huid, hpidEq, hpred⟩
  · intro hno
    cases hpn : entry.projectName with
    | none => rfl
    | some pn =>
      simp only [resolveProjectId]
      by_cases hempty : pn = ""
      · rw [if_pos hempty]
      · rw [if_neg hempty]
        have hfind : (getProjects st.projects uid).find?
            (fun p => strIncludes (lowerChars p.name) (lowerChars pn)) = none := by
          rw [List.find?_eq_none]
          intro p hp
          unfold getProjects at hp
          rw [List.mem_insertionSort] at hp
          obtain ⟨hmem, huid⟩ := List.mem_filter.mp hp
          have h8 := hno p hmem (by simpa using huid)
          rw [hpn] at h8
          have h8' : strIncludes (lowerChars p.name) (lowerChars pn) = false := h8
          simp [h8']
        rw [hfind]
        rfl
  · cases tr <;> rfl

/-- Witness for `import_entry_task_shape`: the sample entry resolves the
"Acme Corp" project by the fragment `"acme"`, keeps its valid priority
and starts as a pending task. -/
theorem import_entry_task_shape_witness :
    resolveProjectId sProjStore.projects "alice" (some "acme") = some 7 ∧
    (taskFromEntry sProjStore "alice" "tasks.txt" sEntry 3).category = "pending" ∧
    (taskFromEntry sProjStore "alice" "tasks.txt" sEntry 3).projectId =
      resolveProjectId sProjStore.projects "alice" sEntry.projectName :=
  ⟨by decide,
    (import_entry_task_shape sProjStore "alice" "tasks.txt" sEntry .fails 3).1,
    (import_entry_task_shape sProjStore "alice" "tasks.txt" sEntry
      .fails 3).2.2.2.2.2.1⟩

/-! ## C8 — generate-posts (corrected: first failure aborts the loop) -/

/-- C8 counterexample. With the file present and only the second
platform's generation call failing, the handler answers 500 and the four
remaining platforms are never attempted: only the first platform's draft
exists, so platform calls are not independent. -/
theorem generate_posts_abort_on_failure :
    (generatePostsHandler sFileStore "alice" 1
        (fun i => if i == 1 then GenOutcome.err else GenOutcome.ok (some "post"))).2 =
      PostsHttp.serverError ∧
    ((generatePostsHandler sFileStore "alice" 1
        (fun i => if i == 1 then GenOutcome.err else GenOutcome.ok (some "post"))).1.socialPosts.map
      (fun p => p.platform)) = ["x"] := by decide

/-- When no call in the remaining platform segment fails, the loop
persists one draft per platform, in order, and returns them all. -/
theorem postsLoop_all_ok (uid : String) (fid : Nat) (gen : Nat → GenOutcome) :
    ∀ (l : List String) (st : Store) (i : Nat) (acc : List SocialPost),
    (∀ j, j < l.length → ¬gen (i + j) = GenOutcome.err) →
    postsLoop uid fid gen st l i acc =
      ({ st with socialPosts := st.socialPosts ++ draftPostsFor uid fid gen l i },
        some (acc ++ draftPostsFor uid fid gen l i)) := by
  intro l
  induction l with
  | nil =>
    intro st i acc h
    simp [postsLoop, draftPostsFor]
  | cons platform rest ih =>
    intro st i acc h
    have h0 : ¬gen i = GenOutcome.err := by
      have := h 0 (by simp)
      simpa using this
    cases hg : gen i with
    | err => exact absurd hg h0
    | ok text =>
      simp only [postsLoop, hg]
      rw [ih _ (i + 1) _ (fun j hj => by
        have harith : i + 1 + j = i + (j + 1) := by omega
        rw [harith]
        exact h (j + 1) (by simpa using Nat.succ_lt_succ hj))]
      simp [draftPostsFor, hg, List.append_assoc]

/-- The first failing call jumps out of the loop into the handler's
catch, leaving exactly the drafts of the platforms before it. -/
theorem postsLoop_first_err (uid : String) (fid : Nat) (gen : Nat → GenOutcome) :
    ∀ (l : List String) (st : Store) (i : Nat) (acc : List SocialPost) (k : Nat),
    k < l.length → gen (i + k) = GenOutcome.err →
    (∀ j, j < k → ¬gen (i + j) = GenOutcome.err) →
    postsLoop uid fid gen st l i acc =
      ({ st with socialPosts :=
          st.socialPosts ++ draftPostsFor uid fid gen (l.take k) i }, none) := by
  intro l
  induction l with
  | nil => intro st i acc k hk _ _; exact absurd hk (by simp)
  | cons platform rest ih =>
    intro st i acc k hk hkerr hbefore
    cases k with
    | zero =>
      rw [Nat.add_zero] at hkerr
      simp only [postsLoop, hkerr]
      simp [draftPostsFor]
    | succ k' =>
      have h0 : ¬gen i = GenOutcome.err := by
        have := hbefore 0 (Nat.succ_pos k')
        simpa using this
      cases hg : gen i with
      | err => exact absurd hg h0
      | ok text =>
        simp only [postsLoop, hg]
        rw [ih _ (i + 1) _ k' (by simpa using Nat.lt_of_succ_lt_succ hk)
          (by
            have harith : i + 1 + k' = i + (k' + 1) := by omega
            rw [harith]; exact hkerr)
          (fun j hj => by
            have harith : i + 1 + j = i + (j + 1) := by omega
            rw [harith]
            exact hbefore (j + 1) (Nat.succ_lt_succ hj))]
        simp [draftPostsFor, hg, List.append_assoc, List.take_succ_cons]

/-- C8 (amended). The generate-posts handler attempts generation once
per platform in the fixed six-platform order, persisting each success as
a new draft `SocialPost`; when no call fails it answers 200 with exactly
six draft posts, one per platform in order.  Platform calls are however
NOT independent: the first failing call aborts the whole operation with a
500, keeping the drafts created before it and never attempting the
remaining platforms. -/
theorem generate_posts_sequential (st : Store) (uid : String) (id : Nat)
    (gen : Nat → GenOutcome) (f : FileRec)
    (hf : st.files.find? (fun x => x.id == id) = some f) :
    ((∀ j, j < 6 → ¬gen j = GenOutcome.err) →
      generatePostsHandler st uid id gen =
        ({ st with socialPosts := st.socialPosts ++ draftPostsFor uid id gen platforms 0 },
          PostsHttp.ok (draftPostsFor uid id gen platforms 0))) ∧
    (∀ k, k < 6 → gen k = GenOutcome.err →
      (∀ j, j < k → ¬gen j = GenOutcome.err) →
      generatePostsHandler st uid id gen =
        ({ st with socialPosts := st.socialPosts ++ draftPostsFor uid id gen (platforms.take k) 0 },
          PostsHttp.serverError)) ∧
    (draftPostsFor uid id gen platforms 0).map (fun p => p.platform) = platforms ∧
    ∀ p, p ∈ draftPostsFor uid id gen platforms 0 → p.status = "draft" := by
  refine ⟨?_, ?_, rfl, ?_⟩
  · intro h
    simp only [generatePostsHandler, hf]
    rw [postsLoop_all_ok uid id gen platforms st 0 []
      (fun j hj => by
        have harith : (0 : Nat) + j = j := by omega
        rw [harith]
        exact h j hj)]
    rfl
  · intro k hk hke hb
    simp only [generatePostsHandler, hf]
    rw [postsLoop_first_err uid id gen platforms st 0 [] k hk
      (by rw [Nat.zero_add]; exact hke)
      (fun j hj => by rw [Nat.zero_add]; exact hb j hj)]
  · intro p hp
    simp only [draftPostsFor, platforms, List.mem_cons, List.not_mem_nil,
      or_false] at hp
    rcases hp with rfl | rfl | rfl | rfl | rfl | rfl <;> rfl

/-- Witness for `generate_posts_sequential`: an always-succeeding
generator on the concrete file store yields the six ordered drafts. -/
theorem generate_posts_sequential_witness :
    sFileStore.files.find? (fun x => x.id == 1) = some sFile ∧
    generatePostsHandler sFileStore "alice" 1 (fun _ => GenOutcome.ok (some "post")) =
      ({ sFileStore with socialPosts := sFileStore.socialPosts ++ draftPostsFor "alice" 1 (fun _ => GenOutcome.ok (some "post")) platforms 0 },
        PostsHttp.ok (draftPostsFor "alice" 1 (fun _ => GenOutcome.ok (some "post")) platforms 0)) :=
  ⟨by decide,
    (generate_posts_sequential sFileStore "alice" 1
        (fun _ => GenOutcome.ok (some "post")) sFile (by decide)).1
      (fun j _ => by simp)⟩

end SprintCOO
